import Mathlib

/-!
Verification of the staging subsystem (`lib/spack/spack/stage.py`) of the
spack package manager.  The Python classes `Stage`, `ResourceStage`,
`StageComposite` and `DIYStage` are shallowly embedded: pure computations
become Lean functions, filesystem state becomes explicit records that the
operations transform, and side-effecting loops become recursions that also
return their call trace.
-/

namespace Spack

/-- Fetch strategies, as the code distinguishes them.  `Stage.fetch`,
`Stage.check` and `Stage.source_path` only inspect whether a fetcher is a
`URLFetchStrategy` (and then its `digest` and `expand_archive` attributes);
every other strategy (VCS checkouts etc.) is opaque, identified here by a
tag.  Mirror fetchers built inside `Stage.fetch` are `URLFetchStrategy`
instances with `expand_archive = true` (its constructor default). -/
inductive Fetcher where
  | urlFetch (url : String) (digest : Option String) (expand : Bool)
  | vcsFetch (tag : Nat)
deriving DecidableEq, Repr

/-- `isinstance(f, fs.URLFetchStrategy)`. -/
def Fetcher.isURL : Fetcher → Bool
  | .urlFetch _ _ _ => true
  | .vcsFetch _ => false

/-- The digest read in `Stage.fetch`: `self.default_fetcher.digest` when the
default fetcher is a `URLFetchStrategy`, else `None`. -/
def Fetcher.urlDigest : Fetcher → Option String
  | .urlFetch _ d _ => d
  | .vcsFetch _ => none

/-- `root if root.endswith('/') else root + '/'` (stage.py line 319). -/
def normalizeRoot (root : String) : String :=
  if root.endsWith "/" then root else root ++ "/"

/-- Modelled from the Python standard library `urlparse.urljoin` as used at
stage.py line 321: the base ends in `/` and `mirror_path` is a relative
path, so the join appends the relative path to the base. -/
def urljoin (base rel : String) : String := base ++ rel

/-- The mirror fetcher built for one mirror root (stage.py lines 319-336):
`fs.URLFetchStrategy(urljoin(root-with-slash, mirror_path), digest)`. -/
def mirrorFetcher (default_fetcher : Fetcher) (mirror_path : String)
    (root : String) : Fetcher :=
  Fetcher.urlFetch (urljoin (normalizeRoot root) mirror_path)
    default_fetcher.urlDigest true

/-- The candidate list built by `Stage.fetch` (stage.py lines 305-336):
seed with `default_fetcher` unless `mirror_only`; when `mirror_path` is
set, for each configured mirror root in order, `fetchers.insert(0, ...)`
a mirror fetcher at the front. -/
def buildFetchers (default_fetcher : Fetcher) (mirror_path : Option String)
    (mirrors : List String) (mirror_only : Bool) : List Fetcher :=
  let fetchers := if mirror_only then [] else [default_fetcher]
  match mirror_path with
  | none => fetchers
  | some mp =>
      mirrors.foldl
        (fun acc root => mirrorFetcher default_fetcher mp root :: acc)
        fetchers

/-- `self.skip_checksum_for_mirror` as left by `Stage.fetch` (lines
312-332): set to `True` unconditionally, then, when `mirror_path` is set,
to `not bool(digest)` where `digest` is the default fetcher's digest if it
is URL-based, else `None`. -/
def skipChecksumForMirror (default_fetcher : Fetcher)
    (mirror_path : Option String) : Bool :=
  match mirror_path with
  | none => true
  | some _ => default_fetcher.urlDigest.isNone

/-- The outcome of the fetch loop of `Stage.fetch` (lines 338-351). -/
inductive FetchOutcome where
  | success (adopted : Fetcher)
  | allFailed (errMessage : String) (resetTo : Fetcher)
deriving DecidableEq, Repr

/-- The `for fetcher in fetchers: ... else: ...` loop of `Stage.fetch`
(lines 338-351).  `succeeds f` says whether `f.fetch()` returns normally
(`false`: it raises a recoverable `SpackError`).  Returns the list of
candidates actually tried, in order, together with the outcome: the first
succeeding candidate is adopted as `self.fetcher` and the loop stops; if
every candidate fails, `self.fetcher` is reset to `default_fetcher` and a
`FetchError` "All fetchers failed for <name>" is raised. -/
def fetchLoop (succeeds : Fetcher → Bool) (default_fetcher : Fetcher)
    (name : String) : List Fetcher → List Fetcher × FetchOutcome
  | [] => ([], .allFailed ("All fetchers failed for " ++ name) default_fetcher)
  | f :: rest =>
      if succeeds f then ([f], .success f)
      else
        let r := fetchLoop succeeds default_fetcher name rest
        (f :: r.1, r.2)

/-- `Stage.fetch` end to end, on the pure data it consumes: the tried
candidates and the outcome. -/
def stageFetch (default_fetcher : Fetcher) (mirror_path : Option String)
    (mirrors : List String) (mirror_only : Bool) (succeeds : Fetcher → Bool)
    (name : String) : List Fetcher × FetchOutcome :=
  fetchLoop succeeds default_fetcher name
    (buildFetchers default_fetcher mirror_path mirrors mirror_only)

end Spack

namespace Spack

lemma buildFetchers_foldl (default_fetcher : Fetcher) (mp : String)
    (mirrors : List String) (base : List Fetcher) :
    mirrors.foldl
        (fun acc root => mirrorFetcher default_fetcher mp root :: acc)
        base
      = (mirrors.map (mirrorFetcher default_fetcher mp)).reverse ++ base := by
  induction mirrors generalizing base with
  | nil => simp
  | cons m ms ih => simp [ih]

/-- General form of the candidate order: the mirror fetchers in reverse
configuration order, then the default fetcher (absent when mirror-only). -/
lemma buildFetchers_eq (default_fetcher : Fetcher) (mp : String)
    (mirrors : List String) (mirror_only : Bool) :
    buildFetchers default_fetcher (some mp) mirrors mirror_only
      = (mirrors.map (mirrorFetcher default_fetcher mp)).reverse
          ++ (if mirror_only then [] else [default_fetcher]) := by
  show mirrors.foldl _ _ = _
  rw [buildFetchers_foldl]

end Spack

namespace Spack

lemma fetchLoop_trace_front (succeeds : Fetcher → Bool) (D : Fetcher)
    (name : String) (candidates : List Fetcher) :
    ∃ rest, candidates
      = (fetchLoop succeeds D name candidates).1 ++ rest := by
  induction candidates with
  | nil => exact ⟨[], rfl⟩
  | cons f tail ih =>
      by_cases hf : succeeds f = true
      · exact ⟨tail, by simp [fetchLoop, hf]⟩
      · obtain ⟨rest, hrest⟩ := ih
        refine ⟨rest, ?_⟩
        simp only [fetchLoop, hf, if_false]
        simpa using hrest

/-- C1: with mirrors configured in order `[m1, m2]` and `mirror_path` set,
`Stage.fetch` builds the candidate list `[mirror m2, mirror m1, default]`
when `mirror_only = false` and `[mirror m2, mirror m1]` when
`mirror_only = true`, and tries the candidates front-first: whatever the
individual outcomes, the fetchers actually tried form a front segment of
that list.  In general each mirror fetcher is inserted at the front one
at a time in configuration order, yielding the reversed mirror order
followed by the pre-seeded default. -/
theorem fetch_candidate_order (D : Fetcher) (mp m1 m2 : String) :
    buildFetchers D (some mp) [m1, m2] false
        = [mirrorFetcher D mp m2, mirrorFetcher D mp m1, D]
      ∧ buildFetchers D (some mp) [m1, m2] true
        = [mirrorFetcher D mp m2, mirrorFetcher D mp m1]
      ∧ (∀ (mirrors : List String) (mo : Bool),
          buildFetchers D (some mp) mirrors mo
            = (mirrors.map (mirrorFetcher D mp)).reverse
                ++ (if mo then [] else [D]))
      ∧ (∀ (succeeds : Fetcher → Bool) (name : String) (mo : Bool),
          ∃ rest, buildFetchers D (some mp) [m1, m2] mo
            = (stageFetch D (some mp) [m1, m2] mo succeeds name).1 ++ rest) := by
  refine ⟨?_, ?_, fun mirrors mo => buildFetchers_eq D mp mirrors mo,
    fun succeeds name mo => ?_⟩
  · rw [buildFetchers_eq]; rfl
  · rw [buildFetchers_eq]; rfl
  · exact fetchLoop_trace_front succeeds D name
      (buildFetchers D (some mp) [m1, m2] mo)

lemma fetchLoop_all_fail (succeeds : Fetcher → Bool) (D : Fetcher)
    (name : String) (candidates : List Fetcher)
    (h : ∀ f ∈ candidates, succeeds f = false) :
    fetchLoop succeeds D name candidates
      = (candidates, .allFailed ("All fetchers failed for " ++ name) D) := by
  induction candidates with
  | nil => rfl
  | cons f rest ih =>
      have hf : succeeds f = false := h f (List.mem_cons_self f rest)
      have hrest : ∀ g ∈ rest, succeeds g = false :=
        fun g hg => h g (List.mem_cons_of_mem f hg)
      simp [fetchLoop, hf, ih hrest]

lemma fetchLoop_first_success (succeeds : Fetcher → Bool) (D : Fetcher)
    (name : String) (pre : List Fetcher) (f : Fetcher) (post : List Fetcher)
    (hpre : ∀ g ∈ pre, succeeds g = false) (hf : succeeds f = true) :
    fetchLoop succeeds D name (pre ++ f :: post)
      = (pre ++ [f], .success f) := by
  induction pre with
  | nil => simp [fetchLoop, hf]
  | cons g rest ih =>
      have hg : succeeds g = false := hpre g (List.mem_cons_self g rest)
      have hrest : ∀ x ∈ rest, succeeds x = false :=
        fun x hx => hpre x (List.mem_cons_of_mem g hx)
      simp [fetchLoop, hg, ih hrest]

/-- C2: if every candidate raises a recoverable fetch error, the loop of
`Stage.fetch` tries them all, resets the active fetcher to
`default_fetcher` and raises the aggregate error whose message names the
stage; if the candidate list is some failing prefix followed by a
succeeding candidate `f`, exactly the prefix and `f` are tried (no later
candidate), and `f` is adopted as the active fetcher. -/
theorem fetch_exhaustion_and_adoption (succeeds : Fetcher → Bool)
    (D : Fetcher) (name : String) (candidates pre post : List Fetcher)
    (f : Fetcher) :
    ((∀ g ∈ candidates, succeeds g = false) →
        fetchLoop succeeds D name candidates
          = (candidates, .allFailed ("All fetchers failed for " ++ name) D))
      ∧ ((∀ g ∈ pre, succeeds g = false) → succeeds f = true →
          fetchLoop succeeds D name (pre ++ f :: post)
            = (pre ++ [f], .success f)) := by
  exact ⟨fun h => fetchLoop_all_fail succeeds D name candidates h,
    fun hpre hf => fetchLoop_first_success succeeds D name pre f post hpre hf⟩

/-- Witness for C2 at concrete inputs: both failure and adoption branches. -/
theorem fetch_exhaustion_and_adoption_witness :
    (fetchLoop (fun g => decide (g = Fetcher.vcsFetch 1)) (Fetcher.vcsFetch 0)
          "pkg" [Fetcher.vcsFetch 2, Fetcher.vcsFetch 3]
        = ([Fetcher.vcsFetch 2, Fetcher.vcsFetch 3],
            .allFailed "All fetchers failed for pkg" (Fetcher.vcsFetch 0)))
      ∧ (fetchLoop (fun g => decide (g = Fetcher.vcsFetch 1)) (Fetcher.vcsFetch 0)
          "pkg" ([Fetcher.vcsFetch 2] ++ Fetcher.vcsFetch 1 :: [Fetcher.vcsFetch 3])
        = ([Fetcher.vcsFetch 2, Fetcher.vcsFetch 1],
            .success (Fetcher.vcsFetch 1))) := by
  have h := fetch_exhaustion_and_adoption
    (fun g => decide (g = Fetcher.vcsFetch 1)) (Fetcher.vcsFetch 0) "pkg"
    [Fetcher.vcsFetch 2, Fetcher.vcsFetch 3] [Fetcher.vcsFetch 2]
    [Fetcher.vcsFetch 3] (Fetcher.vcsFetch 1)
  exact ⟨h.1 (by decide), h.2 (by decide) (by decide)⟩

/-- What `Stage.check` (stage.py lines 353-364) does. -/
inductive CheckAction where
  | warnSkip
  | delegate (f : Fetcher)
deriving DecidableEq, Repr

/-- `Stage.check`: warn and skip when `self.fetcher is not
self.default_fetcher and self.skip_checksum_for_mirror`, else call
`self.fetcher.check()`.  `fetcher_is_default` stands for the Python
identity test `self.fetcher is self.default_fetcher`. -/
def stageCheck (fetcher_is_default : Bool) (skip_checksum_for_mirror : Bool)
    (fetcher : Fetcher) : CheckAction :=
  if !fetcher_is_default && skip_checksum_for_mirror then .warnSkip
  else .delegate fetcher

/-- C3: `Stage.check` skips verification with a warning exactly when the
active fetcher differs from the default fetcher and the
skip-checksum-for-mirror flag is set — and with `mirror_path` set that
flag holds exactly when the default fetcher carried no digest; in every
other case `check` delegates verification to the active fetcher. -/
theorem check_skip_iff (b skip : Bool) (f D : Fetcher) (mp : String) :
    (stageCheck b skip f = .warnSkip ↔ (b = false ∧ skip = true))
      ∧ (¬(b = false ∧ skip = true) → stageCheck b skip f = .delegate f)
      ∧ (skipChecksumForMirror D (some mp) = D.urlDigest.isNone) := by
  refine ⟨?_, ?_, rfl⟩
  · cases b <;> cases skip <;> simp [stageCheck]
  · intro h
    cases b <;> cases skip <;> simp_all [stageCheck]

/-- Witness for C3: a mirror-adopted fetcher with no digest is skipped
with a warning; the default fetcher is delegated to. -/
theorem check_skip_iff_witness :
    (stageCheck false true (Fetcher.urlFetch "m/x.tgz" none true)
        = CheckAction.warnSkip)
      ∧ stageCheck true true (Fetcher.vcsFetch 0)
          = CheckAction.delegate (Fetcher.vcsFetch 0) := by
  have h1 := check_skip_iff false true (Fetcher.urlFetch "m/x.tgz" none true)
    (Fetcher.vcsFetch 0) "x.tgz"
  have h2 := check_skip_iff true true (Fetcher.vcsFetch 0)
    (Fetcher.vcsFetch 0) "x.tgz"
  exact ⟨h1.1.mpr ⟨rfl, rfl⟩, h2.2.1 (by simp)⟩

/-- The scope-relevant state of one Stage: whether its directory is on
disk, whether its lock is held, and its `keep` flag. -/
structure StageScopeState where
  dirPresent : Bool
  lockHeld : Bool
  keep : Bool
deriving DecidableEq, Repr

/-- `Stage.destroy` (lines 425-433) as it affects the stage directory:
`remove_linked_tree(self.path)`. -/
def stageDestroy (s : StageScopeState) : StageScopeState :=
  { s with dirPresent := false }

/-- `Stage.__exit__` (lines 179-197): destroy when no exception propagated
and `keep` is false, then release the lock in every case.  `exc_raised`
stands for `exc_type is not None`. -/
def stageExit (exc_raised : Bool) (s : StageScopeState) : StageScopeState :=
  let s1 := if exc_raised = false && s.keep = false then stageDestroy s else s
  { s1 with lockHeld := false }

/-- `Stage.__enter__` (lines 167-177): acquire the lock, `create()`, and
return `self`; the second component is the value bound by `with ... as`. -/
def stageEnter (s : StageScopeState) : StageScopeState × Option StageScopeState :=
  let s1 := { s with lockHeld := true, dirPresent := true }
  (s1, some s1)

/-- C4: on exit with an exception propagating, the directory is left as it
was (present if it was present) whatever `keep` is; on clean exit with
`keep = false` the directory is destroyed; with `keep = true` it is left
in place; and the lock is released in all cases. -/
theorem scope_exit_semantics (s : StageScopeState) :
    ((stageExit true s).dirPresent = s.dirPresent)
      ∧ (s.keep = false → (stageExit false s).dirPresent = false)
      ∧ (s.keep = true → (stageExit false s).dirPresent = s.dirPresent)
      ∧ (∀ e : Bool, (stageExit e s).lockHeld = false) := by
  obtain ⟨d, l, k⟩ := s
  refine ⟨rfl, ?_, ?_, ?_⟩
  · intro h; subst h; rfl
  · intro h; subst h; rfl
  · intro e; cases e <;> cases k <;> rfl

/-- Witness for C4 at a concrete state. -/
theorem scope_exit_semantics_witness :
    ((false : Bool) = false
        ∧ (stageExit false ⟨true, true, false⟩).dirPresent = false)
      ∧ (stageExit true ⟨true, true, false⟩).dirPresent = true := by
  have h := scope_exit_semantics ⟨true, true, false⟩
  exact ⟨⟨rfl, h.2.1 rfl⟩, h.1⟩

/-- What the filesystem holds at a stage's `path`.  A symlink records
whether its target still exists, whether the target is a directory, and
whether the canonical (`os.path.realpath`) target lies under the canonical
temp root. -/
inductive PathEntry where
  | missing
  | regularFile
  | realDir
  | symlinkTo (targetExists targetIsDir underTmpRoot : Bool)
deriving DecidableEq, Repr

/-- `os.path.exists(path)` — follows symlinks, so a dangling link does not
exist. -/
def PathEntry.osExists : PathEntry → Bool
  | .missing => false
  | .regularFile => true
  | .realDir => true
  | .symlinkTo te _ _ => te

/-- `os.path.isdir(path)` — follows symlinks. -/
def PathEntry.osIsdir : PathEntry → Bool
  | .realDir => true
  | .symlinkTo te tid _ => te && tid
  | _ => false

/-- `os.path.islink(path)`. -/
def PathEntry.osIslink : PathEntry → Bool
  | .symlinkTo _ _ _ => true
  | _ => false

/-- `os.path.realpath(path).startswith(os.path.realpath(tmp_root))`. -/
def PathEntry.realpathUnderTmp : PathEntry → Bool
  | .symlinkTo _ _ utr => utr
  | _ => false

/-- `os.path.exists(os.path.realpath(path))`. -/
def PathEntry.realpathExists : PathEntry → Bool
  | .missing => false
  | .symlinkTo te _ _ => te
  | _ => true

/-- `Stage._need_to_create_path` (lines 199-235).  The first component is
the returned boolean (`true`: the path must be (re)built — note the
function's docstring describes the opposite of what it returns); the
second is the entry at `path` after the function's `os.unlink` side
effects. -/
def needToCreatePath (use_tmp_stage : Bool) (e : PathEntry) : Bool × PathEntry :=
  if e.osExists = false then (true, e)
  else if e.osIsdir = false then (true, .missing)
  else if e.osIslink then
    if use_tmp_stage then
      if e.realpathUnderTmp && e.realpathExists then (false, e)
      else (true, .missing)
    else (true, .missing)
  else (false, e)

/-- C5: a missing path is rebuilt; an existing real directory is reused; a
symlink to a live directory whose canonical target is under the canonical
temp root is reused under temp-staging mode, and rebuilt with the stale
link removed when temp-staging mode is off. -/
theorem path_resolver_decision (u : Bool) :
    (needToCreatePath u .missing = (true, .missing))
      ∧ (needToCreatePath u .realDir = (false, .realDir))
      ∧ (needToCreatePath true (.symlinkTo true true true)
          = (false, .symlinkTo true true true))
      ∧ (needToCreatePath false (.symlinkTo true true true)
          = (true, .missing)) := by
  cases u <;> exact ⟨rfl, rfl, rfl, rfl⟩

/-- `remove_if_dead_link(self.path)` (llnl.util.filesystem): unlink `path`
when it is a symlink whose target no longer exists. -/
def removeIfDeadLink : PathEntry → PathEntry
  | .symlinkTo false _ _ => .missing
  | e => e

/-- `Stage.create` (lines 396-423) as it affects the entry at `path`:
remove a dead link, ask `_need_to_create_path`, and if needed either make
a fresh temp directory and symlink `path` to it (when a temp root was
found) or `mkdirp(path)`.  The boolean reports whether anything was
created at `path` (the access check of line 423 is not a mutation). -/
def stageCreate (use_tmp_stage has_tmp_root : Bool) (e : PathEntry) :
    PathEntry × Bool :=
  let e1 := removeIfDeadLink e
  let nr := needToCreatePath use_tmp_stage e1
  if nr.1 then
    if has_tmp_root then (.symlinkTo true true true, true)
    else (.realDir, true)
  else (nr.2, false)

/-- `join_path(spack.stage_path, self.name)` from `Stage.__init__` (lines
149-152): the stage path is the explicit `path` argument when given, else
the name resolved under the global stage root. -/
def stagePath (stage_root name : String) (path : Option String) : String :=
  match path with
  | some p => p
  | none => stage_root ++ "/" ++ name

/-- C6: two stages constructed with the same name (and no explicit path)
resolve to the same path, and `create` is idempotent: a second `create`
on the entry left by a first `create` changes nothing on disk.  The
hypothesis reflects `find_tmp_root` (lines 577-593), which returns a temp
root only when `spack.use_tmp_stage` is set. -/
theorem create_idempotent (root n : String) (u h : Bool) (e : PathEntry)
    (hroot : h = true → u = true) :
    (stagePath root n none = stagePath root n none)
      ∧ stageCreate u h (stageCreate u h e).1 = ((stageCreate u h e).1, false) := by
  refine ⟨rfl, ?_⟩
  cases e with
  | missing => revert hroot; revert u h; decide
  | regularFile => revert hroot; revert u h; decide
  | realDir => revert hroot; revert u h; decide
  | symlinkTo te tid utr => revert hroot; revert u h te tid utr; decide

/-- Witness for C6: a fresh temp-staged stage created twice. -/
theorem create_idempotent_witness :
    ((true : Bool) = true → (true : Bool) = true)
      ∧ stageCreate true true (stageCreate true true PathEntry.missing).1
          = ((stageCreate true true PathEntry.missing).1, false) := by
  exact ⟨fun h => h,
    (create_idempotent "st" "n" true true PathEntry.missing (fun h => h)).2⟩

/-- The six lifecycle operations listed in the `@pattern.composite`
decoration of `StageComposite` (lines 475-476). -/
inductive StageOp where
  | fetchOp
  | createOp
  | checkOp
  | expandArchiveOp
  | restageOp
  | destroyOp
deriving DecidableEq, Repr

/-- Modelled from the spec: the `@pattern.composite(method_list=[...])`
decorator comes from `spack.util.pattern`, which is not under src/; per
the spec it generates, for each of `fetch`, `create`, `check`,
`expand_archive`, `restage` and `destroy`, a forwarding method that calls
that operation on every member in insertion order.  The result is the
call trace: each member paired with the operation, in call order. -/
def compositeBroadcast (members : List StageScopeState) (op : StageOp) :
    List (StageScopeState × StageOp) :=
  members.map (fun m => (m, op))

/-- `StageComposite.__enter__` (lines 487-490): call `__enter__` on every
member, iterating in insertion order; the entered member states, in call
order. -/
def compositeEnter (members : List StageScopeState) : List StageScopeState :=
  members.map (fun m => (stageEnter m).1)

/-- `StageComposite.__exit__` (lines 492-495): iterate the members in
reverse order, setting each member's `keep` to the composite's `keep`
before calling its `__exit__`.  The exited member states, in call
order. -/
def compositeExit (compositeKeep exc_raised : Bool)
    (members : List StageScopeState) : List StageScopeState :=
  members.reverse.map (fun m => stageExit exc_raised { m with keep := compositeKeep })

/-- The per-member values the read-only composite queries forward. -/
structure StageView where
  path : String
  sourcePath : Option String
  archiveFile : Option String
deriving DecidableEq, Repr

/-- `StageComposite.path` (lines 504-506): `self[0].path`; `none` models
the `IndexError` on an empty composite. -/
def compositePath (members : List StageView) : Option String :=
  members[0]?.map StageView.path

/-- `StageComposite.source_path` (lines 500-502): `self[0].source_path`. -/
def compositeSourcePath (members : List StageView) : Option (Option String) :=
  members[0]?.map StageView.sourcePath

/-- `StageComposite.archive_file` (lines 511-513): `self[0].archive_file`. -/
def compositeArchiveFile (members : List StageView) : Option (Option String) :=
  members[0]?.map StageView.archiveFile

/-- C7: a lifecycle operation is broadcast to all N members in insertion
order (call i targets member i, and there are exactly N calls); scope
entry enters the members in insertion order; scope exit exits them in
reverse order, each with the composite's `keep` flag propagated to it;
and the `path`, `source_path` and `archive_file` queries return member
0's value, unchanged by whatever follows member 0. -/
theorem composite_semantics (ms : List StageScopeState) (op : StageOp)
    (k exc : Bool) (v : StageView) (vs vs' : List StageView) :
    ((compositeBroadcast ms op).length = ms.length
        ∧ ∀ i : Nat, (compositeBroadcast ms op)[i]? = ms[i]?.map (fun m => (m, op)))
      ∧ (∀ i : Nat, (compositeEnter ms)[i]? = ms[i]?.map (fun m => (stageEnter m).1))
      ∧ (compositeExit k exc ms
          = (ms.map (fun m => stageExit exc { m with keep := k })).reverse
        ∧ ∀ m' ∈ compositeExit k exc ms, m'.keep = k)
      ∧ (compositePath (v :: vs) = some v.path
        ∧ compositeSourcePath (v :: vs) = some v.sourcePath
        ∧ compositeArchiveFile (v :: vs) = some v.archiveFile
        ∧ compositePath (v :: vs) = compositePath (v :: vs')
        ∧ compositeSourcePath (v :: vs) = compositeSourcePath (v :: vs')
        ∧ compositeArchiveFile (v :: vs) = compositeArchiveFile (v :: vs')) := by
  refine ⟨⟨?_, ?_⟩, ?_, ⟨?_, ?_⟩, ?_, ?_, ?_, ?_, ?_, ?_⟩
  · simp [compositeBroadcast]
  · intro i; simp [compositeBroadcast]
  · intro i; simp [compositeEnter]
  · simp [compositeExit, List.map_reverse]
  · intro m' hm'
    simp only [compositeExit, List.mem_map] at hm'
    obtain ⟨m, _, rfl⟩ := hm'
    obtain ⟨d, l, kk⟩ := m
    cases exc <;> cases k <;> rfl
  · simp [compositePath]
  · simp [compositeSourcePath]
  · simp [compositeArchiveFile]
  · simp [compositePath]
  · simp [compositeSourcePath]
  · simp [compositeArchiveFile]

/-- A directory entry of `os.listdir(self.path)`, carrying whether
`os.path.isdir` holds of the corresponding child path. -/
structure DirEntry where
  name : String
  isDir : Bool
deriving DecidableEq, Repr

/-- The loop of `Stage.source_path` (lines 287-290): return the first
child of `path` that is a directory, else `None`. -/
def firstDirChild (path : String) : List DirEntry → Option String
  | [] => none
  | d :: rest => if d.isDir then some (path ++ "/" ++ d.name)
      else firstDirChild path rest

/-- `Stage.source_path` (lines 269-290): a non-expanding
`URLFetchStrategy` yields `path` itself; otherwise scan the children of
`path` for the first directory. -/
def stageSourcePath (fetcher : Fetcher) (path : String)
    (listing : List DirEntry) : Option String :=
  match fetcher with
  | .urlFetch _ _ expand =>
      if !expand then some path else firstDirChild path listing
  | .vcsFetch _ => firstDirChild path listing

lemma firstDirChild_eq_find (path : String) (listing : List DirEntry) :
    firstDirChild path listing
      = (listing.find? (fun d => d.isDir)).map (fun d => path ++ "/" ++ d.name) := by
  induction listing with
  | nil => rfl
  | cons d rest ih =>
      by_cases hd : d.isDir <;> simp [firstDirChild, List.find?, hd, ih]

/-- C8: `source_path` returns `path` itself for a non-expanding URL
fetcher; for an expanding URL fetcher or any non-URL fetcher it returns
the first immediate child of `path` that is a directory, and the absence
marker when no child directory exists. -/
theorem source_path_semantics (url : String) (dg : Option String)
    (tag : Nat) (path : String) (listing : List DirEntry) :
    (stageSourcePath (.urlFetch url dg false) path listing = some path)
      ∧ (stageSourcePath (.urlFetch url dg true) path listing
          = (listing.find? (fun d => d.isDir)).map (fun d => path ++ "/" ++ d.name))
      ∧ (stageSourcePath (.vcsFetch tag) path listing
          = (listing.find? (fun d => d.isDir)).map (fun d => path ++ "/" ++ d.name))
      ∧ (listing.all (fun d => !d.isDir) = true →
          stageSourcePath (.vcsFetch tag) path listing = none) := by
  refine ⟨rfl, ?_, ?_, ?_⟩
  · simp [stageSourcePath, firstDirChild_eq_find]
  · simp [stageSourcePath, firstDirChild_eq_find]
  · intro hall
    simp only [stageSourcePath, firstDirChild_eq_find]
    rw [List.find?_eq_none.mpr]
    · rfl
    · intro d hd
      have := List.all_eq_true.mp hall d hd
      simpa using this

/-- Witness for C8: an empty expansion yields the absence marker. -/
theorem source_path_semantics_witness :
    ([DirEntry.mk "a.tgz" false].all (fun d => !d.isDir) = true)
      ∧ stageSourcePath (.vcsFetch 0) "/st/n" [DirEntry.mk "a.tgz" false] = none := by
  refine ⟨by decide, ?_⟩
  exact (source_path_semantics "u" none 0 "/st/n" [DirEntry.mk "a.tgz" false]).2.2.2
    (by decide)

/-- The `resource.placement` value consulted by
`ResourceStage.expand_archive` (lines 446-449): `None`, a plain string,
or a mapping. -/
inductive Placement where
  | str (s : String)
  | dict (entries : List (String × String))
deriving DecidableEq, Repr

/-- The placement normalization of lines 446-449: `None` defaults to the
basename of the resource's `source_path`; anything that is not a dict is
wrapped as a single-entry mapping under the empty key. -/
def normalizePlacement (resource_placement : Option Placement)
    (source_basename : String) : List (String × String) :=
  match resource_placement with
  | none => [("", source_basename)]
  | some (.str s) => [("", s)]
  | some (.dict entries) => entries

/-- `join_path` on two components. -/
def joinPath (a b : String) : String := a ++ "/" ++ b

/-- The body of the placement loop of `ResourceStage.expand_archive`
(lines 451-472) for one mapping entry, over a filesystem modelled as the
list of existing directory paths: `os.makedirs(target_path)` tolerating a
pre-existing directory, then `shutil.move` only when `destination_path`
does not yet exist.  Returns the filesystem afterwards and whether a move
was performed. -/
def placeEntry (fs : List String) (root_source resource_source dest : String)
    (entry : String × String) : List String × Bool :=
  let target_path := joinPath root_source dest
  let destination_path := joinPath target_path entry.2
  let source_path := joinPath resource_source entry.1
  let fs1 := if target_path ∈ fs then fs else target_path :: fs
  if destination_path ∈ fs1 then (fs1, false)
  else (destination_path :: fs1.erase source_path, true)

lemma placeEntry_no_move_of_dest_mem (fs : List String)
    (root_source resource_source dest : String) (entry : String × String)
    (h : joinPath (joinPath root_source dest) entry.2 ∈ fs) :
    (placeEntry fs root_source resource_source dest entry).2 = false
      ∧ (placeEntry fs root_source resource_source dest entry).1
          = (if joinPath root_source dest ∈ fs then fs
              else joinPath root_source dest :: fs) := by
  have hd1 : joinPath (joinPath root_source dest) entry.2
      ∈ (if joinPath root_source dest ∈ fs then fs
          else joinPath root_source dest :: fs) := by
    by_cases ht : joinPath root_source dest ∈ fs <;> simp [ht, h]
  unfold placeEntry
  simp [hd1]

lemma placeEntry_dest_mem (fs : List String)
    (root_source resource_source dest : String) (entry : String × String) :
    joinPath (joinPath root_source dest) entry.2
      ∈ (placeEntry fs root_source resource_source dest entry).1 := by
  unfold placeEntry
  set fs1 := if joinPath root_source dest ∈ fs then fs
    else joinPath root_source dest :: fs with hfs1
  by_cases hd : joinPath (joinPath root_source dest) entry.2 ∈ fs1
  · simp [hd]
  · simp [hd]

/-- C9: a placement entry whose destination already exists performs no
move and leaves the filesystem unchanged apart from ensuring the target
directory exists; running the same entry a second time never moves again;
a `None` placement defaults to the single entry mapping the whole
resource (empty key) to the basename of its `source_path`; and a plain
string placement becomes the single-entry mapping to that string. -/
theorem resource_placement_idempotent (fs : List String)
    (root_source resource_source dest : String) (entry : String × String)
    (b s : String) :
    (joinPath (joinPath root_source dest) entry.2 ∈ fs →
        (placeEntry fs root_source resource_source dest entry).2 = false
      ∧ (placeEntry fs root_source resource_source dest entry).1
          = (if joinPath root_source dest ∈ fs then fs
              else joinPath root_source dest :: fs))
      ∧ (placeEntry (placeEntry fs root_source resource_source dest entry).1
            root_source resource_source dest entry).2 = false
      ∧ normalizePlacement none b = [("", b)]
      ∧ normalizePlacement (some (.str s)) b = [("", s)] := by
  refine ⟨?_, ?_, rfl, rfl⟩
  · intro hdest
    exact placeEntry_no_move_of_dest_mem fs root_source resource_source dest
      entry hdest
  · exact (placeEntry_no_move_of_dest_mem
      (placeEntry fs root_source resource_source dest entry).1
      root_source resource_source dest entry
      (placeEntry_dest_mem fs root_source resource_source dest entry)).1

/-- Witness for C9: placing into an already-populated destination moves
nothing. -/
theorem resource_placement_idempotent_witness :
    (joinPath (joinPath "/st/root/src" "d") "lib" ∈ ["/st/root/src/d/lib"])
      ∧ (placeEntry ["/st/root/src/d/lib"] "/st/root/src" "/st/res/src" "d"
          ("", "lib")).2 = false := by
  have h := resource_placement_idempotent ["/st/root/src/d/lib"] "/st/root/src"
    "/st/res/src" "d" ("", "lib") "b" "s"
  exact ⟨by simp [joinPath], (h.1 (by simp [joinPath])).1⟩

/-- `DIYStage.__init__` (lines 519-522): wraps an existing directory;
`archive_file` is `None` and `source_path` is the directory itself. -/
structure DIYStage where
  archive_file : Option String
  path : String
  source_path : String
deriving DecidableEq, Repr

/-- `DIYStage(path)`. -/
def DIYStage.ofPath (p : String) : DIYStage :=
  { archive_file := none, path := p, source_path := p }

/-- `DIYStage.__enter__` (lines 531-532): the body is `pass`, so the
context-manager entry returns Python `None` — the `with ... as s` binding
receives the absence marker, not the stage. -/
def DIYStage.enterValue (_d : DIYStage) : Option DIYStage := none

/-- C10: entering a DIYStage scope binds the absence marker, while
entering a Stage scope binds the (entered) Stage itself. -/
theorem diy_enter_yields_absence (d : DIYStage) (s : StageScopeState) :
    d.enterValue = none
      ∧ (stageEnter s).2 = some (stageEnter s).1
      ∧ ((stageEnter s).2.isSome = true) := by
  exact ⟨rfl, rfl, rfl⟩

end Spack
